import Mathlib

/-!
Shallow embedding of the voice question-answer pipeline of the `parrot`
overlay application.  The definitions below are translated from the main
process source (the `SAVE_AND_TRANSCRIBE` IPC handler and the module-level
voice state around it), with asynchronous I/O represented by an explicit
environment of external outcomes and the mutable module variables threaded
as an explicit state record.
-/

namespace Parrot

/-- `interface VoiceTurn { q: string; a: string; ts: number }` (source line 132). -/
structure VoiceTurn where
  q : String
  a : String
  ts : Nat
deriving Repr, DecidableEq

/-- The module-level mutable voice state of the main process (source lines
129–136): `voiceContext`, `voiceStreamingActive`, `voicePreferredModel`,
`voiceHistory`, `voiceHistoryEnabled`. -/
structure VoiceState where
  voiceContext : String
  voiceStreamingActive : Bool
  voicePreferredModel : Option String
  voiceHistory : List VoiceTurn
  voiceHistoryEnabled : Bool
deriving Repr, DecidableEq

/-- `const VOICE_HISTORY_MAX_TURNS = 15` (source line 135). -/
def VOICE_HISTORY_MAX_TURNS : Nat := 15

/-- `const VOICE_HISTORY_CHAR_LIMIT = 2500` (source line 136). -/
def VOICE_HISTORY_CHAR_LIMIT : Nat := 2500

/-- `const defaultModels = ['phi3:latest', 'mistral:latest', 'llama3',
'gemma3:12b-it-qat']` (source line 852). -/
def defaultModels : List String :=
  ["phi3:latest", "mistral:latest", "llama3", "gemma3:12b-it-qat"]

/-- JavaScript `a || b` on strings: the empty string is falsy. -/
def jsOr (a b : String) : String := if a = "" then b else a

/-- JavaScript truthiness of an optional string value: `null`, `undefined`
and the empty string are all falsy. -/
def optTruthy : Option String → Option String
  | some s => if s = "" then none else some s
  | none => none

/-- History append on success (source lines 952–955):
`voiceHistory.push({q, a, ts})` followed by
`if (voiceHistory.length > VOICE_HISTORY_MAX_TURNS) voiceHistory = voiceHistory.slice(-VOICE_HISTORY_MAX_TURNS)`.
`slice(-15)` keeps the last 15 elements, i.e. drops `length - 15` from the front. -/
def appendTurn (h : List VoiceTurn) (t : VoiceTurn) : List VoiceTurn :=
  let h2 := h ++ [t]
  if h2.length > VOICE_HISTORY_MAX_TURNS then h2.drop (h2.length - VOICE_HISTORY_MAX_TURNS)
  else h2

/-- The per-turn snippet counted against the character budget (source line
871): `` `Q: ${turn.q}\nA: ${turn.a}\n\n` ``. -/
def turnSnippet (t : VoiceTurn) : String :=
  "Q: " ++ t.q ++ "\nA: " ++ t.a ++ "\n\n"

/-- The per-turn block used when rendering the selected turns (source line
879): `` `Q: ${t.q}\nA: ${t.a}` ``. -/
def renderTurn (t : VoiceTurn) : String :=
  "Q: " ++ t.q ++ "\nA: " ++ t.a

/-- The fixed header of the history section (source line 879). -/
def historyHeader : String := "Previous exchanges (context):\n"

/-- JavaScript `Array.prototype.join(sep)`. -/
def joinSep (sep : String) : List String → String
  | [] => ""
  | [x] => x
  | x :: y :: rest => x ++ sep ++ joinSep sep (y :: rest)

/-- The backward walk over history (source lines 867–876): iterate from the
most recent turn towards the oldest, keeping a running character total;
stop (`break`) at the first turn whose snippet would push the total over
the limit.  The input list is the history in newest-first order (the
source walks the array by descending index) and `total` is the running
total so far; the result is the selected turns (still newest-first) and
the final total. -/
def selectTurns (limit : Nat) : List VoiceTurn → Nat → List VoiceTurn × Nat
  | [], total => ([], total)
  | t :: rest, total =>
    let nextTotal := total + (turnSnippet t).length
    if nextTotal > limit then ([], total)
    else
      let res := selectTurns limit rest nextTotal
      (t :: res.1, res.2)

/-- The history section of the prompt (source lines 864–881): empty unless
history is enabled and non-empty; otherwise the budget-limited selection,
reversed back to oldest-first, rendered as the fixed header plus the turn
blocks joined by blank lines, with a trailing blank line. -/
def buildHistorySection (enabled : Bool) (hist : List VoiceTurn) (limit : Nat) : String :=
  if enabled ∧ hist ≠ [] then
    let selected := (selectTurns limit hist.reverse 0).1.reverse
    if selected ≠ [] then
      historyHeader ++ joinSep "\n\n" (selected.map renderTurn) ++ "\n\n"
    else ""
  else ""

/-- One step of the default-model merge (source lines 859–861):
`if (!candidateModels.includes(dm)) candidateModels.push(dm)`. -/
def insertEnd (acc : List String) (dm : String) : List String :=
  if dm ∈ acc then acc else acc ++ [dm]

/-- Candidate model ordering (source lines 852–861): the explicit
per-request override if truthy, else the persisted preferred model if
truthy, else nothing; then each default model is appended unless already
present. -/
def buildCandidateModels (modelArg voicePreferredModel : Option String) : List String :=
  let start :=
    match optTruthy modelArg with
    | some m => [m]
    | none =>
      match optTruthy voicePreferredModel with
      | some p => [p]
      | none => []
  defaultModels.foldl insertEnd start

/-- Modelled from the spec (Step 2 wording, for comparison with
`buildCandidateModels`): remove duplicates from a list while preserving
first-seen order. -/
def dedupKeepFirst : List String → List String
  | [] => []
  | x :: xs => x :: dedupKeepFirst (xs.filter (fun y => y ≠ x))
termination_by l => l.length
decreasing_by
  simp only [List.length_cons]
  exact Nat.lt_succ_of_le (List.length_filter_le _ _)

/-- The JSON body of the transcription response (source line 838): the
transcript is `data?.text || data?.transcription || data?.result || ''`,
so each field is modelled as a string with `""` standing for an absent or
empty field (both are falsy to `||`). -/
structure SttData where
  text : String
  transcription : String
  result : String
deriving Repr, DecidableEq

/-- A line of the newline-delimited JSON stream body (source lines
915–932).  `JSON.parse` failing on the line is `malformed`; otherwise the
line carries a `response` delta (with `""` standing for an absent or empty
field, both falsy to `if (json.response)`) and a `done` flag. -/
inductive StreamLine where
  | malformed (raw : String)
  | obj (response : String) (done : Bool)
deriving Repr, DecidableEq

/-- Outcome of one candidate model attempt at the generation boundary
(source lines 891–942). -/
inductive ModelAttempt where
  /-- the `fetch` itself rejects (transport exception) before a body is read -/
  | fetchThrows (msg : String)
  /-- `!resp.ok || !resp.body`: non-2xx status or missing body (source line 902) -/
  | httpError (status : Nat)
  /-- the body streams `lines`; afterwards the reader either reports end of
  stream (`readFails = false`) or `reader.read()` throws (`readFails = true`) -/
  | stream (lines : List StreamLine) (readFails : Bool)
deriving Repr, DecidableEq

/-- The outcomes of the external boundaries consulted by one handler run. -/
structure Env where
  /-- `fs.writeFileSync` (source line 803): `none` = success, `some msg` = throws -/
  writeError : Option String
  /-- a `FormData` constructor could be obtained (source lines 811–821) -/
  formDataAvailable : Bool
  /-- `form.append` calls succeeded (source lines 823–829) -/
  formBuildOk : Bool
  /-- `axios.post(… /transcribe …)` (source line 836): throws or returns data -/
  sttOutcome : Except String SttData
  /-- per-model outcome of `fetch(… /api/generate …)` and its body stream -/
  attemptOf : String → ModelAttempt
  /-- `Date.now()` at handler entry (source line 794) -/
  startTs : Nat
  /-- `Math.random().toString(36).slice(2,8)` (source line 883) -/
  randSuffix : String
  /-- `Date.now()` at the history push (source line 952) -/
  nowTs : Nat

/-- Renderer-facing events sent over `webContents.send` by the handler.
`prog` is the `'voice:partial'` event (source line 925); the others are
`'voice:status'`, `'voice:result'` and `'voice:error'`. -/
inductive VoiceEvent where
  | status (phase message : String) (question : Option String) (requestId : Option String)
  | prog (requestId delta answer model : String)
  | result (question answer model requestId : String)
  | error (message : String)
deriving Repr, DecidableEq

/-- The IPC channel name each emitted event is sent on. -/
def eventChannel : VoiceEvent → String
  | .status _ _ _ _ => "voice:status"
  | .prog _ _ _ _ => "voice:partial"
  | .result _ _ _ _ => "voice:result"
  | .error _ => "voice:error"

/-- Network calls attempted by one handler run. -/
inductive ExtCall where
  | sttCall (language : String)
  | generateCall (model : String) (promptBase : String)
deriving Repr, DecidableEq

/-- The `await` suspension points of the handler, in source order: the
dynamic imports (lines 809–818), the transcription POST (line 836), each
generation `fetch` (line 896) and each `reader.read()` (line 911).  These
are the only points at which another IPC invocation can interleave with a
run. -/
inductive Await where
  | importModules
  | sttPost
  | fetchGenerate (model : String)
  | streamRead (model : String) (idx : Nat)
deriving Repr, DecidableEq

/-- Whether a suspension point lies inside the streaming-generation loop
(source lines 890–943), i.e. in the region where `voiceStreamingActive`
is set. -/
def isStreamingAwait : Await → Bool
  | .fetchGenerate _ => true
  | .streamRead _ _ => true
  | _ => false

/-- The value returned to the invoking renderer. -/
inductive HandlerResult where
  | ok (question answer model requestId : String)
  | err (error : String)
deriving Repr, DecidableEq

/-- Everything observable about one run of the `SAVE_AND_TRANSCRIBE`
handler: the module state afterwards, the network calls attempted, the
events sent, each suspension point paired with the value of
`voiceStreamingActive` while suspended there, and the returned value. -/
structure RunOutput where
  finalState : VoiceState
  calls : List ExtCall
  events : List VoiceEvent
  awaits : List (Await × Bool)
  result : HandlerResult
deriving Repr, DecidableEq

/-- Processing of the parsed stream lines of one model attempt (source
lines 915–933): a line with a truthy `response` field appends the delta to
the accumulated answer and sends a `'voice:partial'` event carrying the
cumulative text; malformed lines and lines without a truthy `response`
contribute nothing.  Returns the final accumulated answer and the events
sent, in order. -/
def processLines (requestId m : String) : List StreamLine → String → String × List VoiceEvent
  | [], answer => (answer, [])
  | .malformed _ :: rest, answer => processLines requestId m rest answer
  | .obj response _ :: rest, answer =>
    if response = "" then processLines requestId m rest answer
    else
      let answer2 := answer ++ response
      let res := processLines requestId m rest answer2
      (res.1, .prog requestId response answer2 m :: res.2)

/-- One iteration of the candidate-model loop (source lines 890–942),
starting from an empty accumulated answer (`answer` is `''` on entry to
every attempt: initially by line 888, afterwards by the reset at line
940).  Returns `usedModel` (`some m` on success, `none` on failure — the
catch resets it at line 939), the accumulated answer (reset to `''` on
failure, line 940), the events sent before the failure or completion, and
the suspension points of the attempt (all inside the loop, hence with
`voiceStreamingActive = true`). -/
def attemptModel (env : Env) (requestId m : String) :
    Option String × String × List VoiceEvent × List (Await × Bool) :=
  match env.attemptOf m with
  | .fetchThrows _ => (none, "", [], [(.fetchGenerate m, true)])
  | .httpError _ => (none, "", [], [(.fetchGenerate m, true)])
  | .stream lines readFails =>
    let res := processLines requestId m lines ""
    let aws := (Await.fetchGenerate m, true) ::
      (List.range lines.length).map (fun i => (Await.streamRead m i, true))
    if readFails then (none, "", res.2, aws) else (some m, res.1, res.2, aws)

/-- The candidate-model loop (source lines 890–943): try each model in
order, stopping (`break`, line 935) at the first that completes; a failed
attempt keeps its already-sent events but abandons its accumulated answer.
Returns `usedModel`, the accumulated answer, the generation calls
attempted, the events, and the suspension points. -/
def runModels (env : Env) (requestId promptBase : String) :
    List String → Option String × String × List ExtCall × List VoiceEvent × List (Await × Bool)
  | [] => (none, "", [], [], [])
  | m :: rest =>
    match attemptModel env requestId m with
    | (some u, ans, evs, aws) => (some u, ans, [.generateCall m promptBase], evs, aws)
    | (none, _, evs, aws) =>
      let res := runModels env requestId promptBase rest
      (res.1, res.2.1, .generateCall m promptBase :: res.2.2.1, evs ++ res.2.2.2.1, aws ++ res.2.2.2.2)

/-- Extraction of the transcript (source line 838):
`data?.text || data?.transcription || data?.result || ''`. -/
def transcriptionOf (data : SttData) : String :=
  jsOr data.text (jsOr data.transcription data.result)

/-- The correlation identifier (source line 883):
`` `${startTs}-${Math.random().toString(36).slice(2,8)}` ``. -/
def requestIdOf (env : Env) : String :=
  toString env.startTs ++ "-" ++ env.randSuffix

/-- The prompt (source lines 863–882): optional context block (source calls
it `systemPrefix`), the budget-limited history section, and the question. -/
def promptOf (st : VoiceState) (transcription : String) : String :=
  let contextBlock :=
    if st.voiceContext ≠ "" then
      "Interview Context (use this perspective when answering):\n" ++
        st.voiceContext.trim ++ "\n\n"
    else ""
  contextBlock ++ buildHistorySection st.voiceHistoryEnabled st.voiceHistory VOICE_HISTORY_CHAR_LIMIT ++
    "Question: " ++ transcription ++ "\n\nAnswer:"

/-- The `catch` block of the handler (source lines 960–966): send a
`'voice:error'` event with the message, set `voiceStreamingActive = false`,
and return `{ success: false, error: msg }`. -/
def failWith (st : VoiceState) (calls : List ExtCall) (events : List VoiceEvent)
    (aws : List (Await × Bool)) (msg : String) : RunOutput :=
  ⟨{ st with voiceStreamingActive := false }, calls, events ++ [.error msg], aws, .err msg⟩

/-- The rejection returned when `voiceStreamingActive` is already set
(source lines 790–793). -/
def rejectionMsg : String := "Another voice request in progress"

/-- The `SAVE_AND_TRANSCRIBE` IPC handler (source lines 789–967), with the
module state threaded explicitly and the external boundaries read from
`env`.  `buffer` is `none` when `args?.buffer` is falsy.  All suspension
points are recorded together with the value `voiceStreamingActive` holds
while suspended there: the flag, `false` on admission, is set to `true`
only at source line 889 (just before the model loop) and back to `false`
at line 944 or in the catch at line 964. -/
def handleVoiceRequest (st : VoiceState) (env : Env) (buffer : Option (List Nat))
    (modelArg language : Option String) : RunOutput :=
  if st.voiceStreamingActive then
    ⟨st, [], [], [], .err rejectionMsg⟩
  else
    match buffer with
    | none => failWith st [] [] [] "No audio buffer provided"
    | some _ =>
      match env.writeError with
      | some msg => failWith st [] [] [] msg
      | none =>
        let ev1 : List VoiceEvent := [.status "stt" "Transcribing…" none none]
        let aw1 : List (Await × Bool) := [(.importModules, false)]
        if ¬ env.formDataAvailable then
          failWith st [] ev1 aw1 "FormData constructor unavailable (install form-data or upgrade Node)"
        else if ¬ env.formBuildOk then
          failWith st [] ev1 aw1 "Failed to prepare transcription request"
        else
          let calls1 : List ExtCall := [.sttCall (language.getD "en")]
          let aw2 := aw1 ++ [(Await.sttPost, false)]
          match env.sttOutcome with
          | .error _ => failWith st calls1 ev1 aw2 "Transcription failed"
          | .ok data =>
            let transcription := transcriptionOf data
            if transcription = "" then
              failWith st calls1 ev1 aw2 "Empty transcription result"
            else
              let ev2 := ev1 ++ [VoiceEvent.status "llm" "Generating answer…" (some transcription) none]
              let candidateModels := buildCandidateModels modelArg st.voicePreferredModel
              let promptBase := promptOf st transcription
              let requestId := requestIdOf env
              let ev3 := ev2 ++ [VoiceEvent.status "llm" "Generating answer…" (some transcription) (some requestId)]
              let gen := runModels env requestId promptBase candidateModels
              match gen.1 with
              | none =>
                failWith st (calls1 ++ gen.2.2.1) (ev3 ++ gen.2.2.2.1) (aw2 ++ gen.2.2.2.2)
                  "LLM generation failed for all models"
              | some m =>
                let answer := if gen.2.1 = "" then "No answer generated." else gen.2.1
                let hist2 :=
                  if st.voiceHistoryEnabled then
                    appendTurn st.voiceHistory ⟨transcription, answer, env.nowTs⟩
                  else st.voiceHistory
                ⟨{ st with voiceStreamingActive := false, voiceHistory := hist2 },
                  calls1 ++ gen.2.2.1,
                  ev3 ++ gen.2.2.2.1 ++ [.result transcription answer m requestId],
                  aw2 ++ gen.2.2.2.2,
                  .ok transcription answer m requestId⟩

/-- One renderer invocation of the handler: its environment and arguments. -/
structure Req where
  env : Env
  buffer : Option (List Nat)
  modelArg : Option String
  language : Option String

/-- The module state after handling one invocation. -/
def stepReq (st : VoiceState) (r : Req) : VoiceState :=
  (handleVoiceRequest st r.env r.buffer r.modelArg r.language).finalState

/-- The module state after handling a sequence of invocations in order. -/
def runSeq (st : VoiceState) (rs : List Req) : VoiceState :=
  rs.foldl stepReq st

/-- The conversation turn a request produces, when it succeeds. -/
def reqTurn (st : VoiceState) (r : Req) : Option VoiceTurn :=
  match (handleVoiceRequest st r.env r.buffer r.modelArg r.language).result with
  | .ok q a _ _ => some ⟨q, a, r.env.nowTs⟩
  | .err _ => none

/-- The turns produced by a sequence of invocations, in order. -/
def seqTurns (st : VoiceState) : List Req → List VoiceTurn
  | [] => []
  | r :: rest =>
    match reqTurn st r with
    | some t => t :: seqTurns (stepReq st r) rest
    | none => seqTurns (stepReq st r) rest

/-- Every invocation of the sequence returns `{ success: true, … }`. -/
def seqSucceeds (st : VoiceState) : List Req → Prop
  | [] => True
  | r :: rest =>
    (∃ q a m rid, (handleVoiceRequest st r.env r.buffer r.modelArg r.language).result =
      .ok q a m rid) ∧ seqSucceeds (stepReq st r) rest

/-- The `'voice:partial'` events of an event list, as
(requestId, delta, answer, model) tuples, in order. -/
def progEvents (evs : List VoiceEvent) : List (String × String × String × String) :=
  evs.filterMap (fun e =>
    match e with
    | .prog r d a m => some (r, d, a, m)
    | _ => none)

/-- The truthy `response` deltas of a stream, in read order. -/
def responsesOf : List StreamLine → List String :=
  List.filterMap (fun l =>
    match l with
    | .obj response _ => if response = "" then none else some response
    | .malformed _ => none)

/-- The cumulative texts obtained by appending each delta in turn to `acc`. -/
def cumulFrom (acc : String) : List String → List String
  | [] => []
  | d :: ds => (acc ++ d) :: cumulFrom (acc ++ d) ds

/-- An attempt that the per-model `catch` treats as failed: the fetch
throws, the response is non-2xx or bodyless, or the reader throws. -/
def attemptFails (env : Env) (m : String) : Prop :=
  match env.attemptOf m with
  | .stream _ false => False
  | _ => True

instance (env : Env) (m : String) : Decidable (attemptFails env m) := by
  unfold attemptFails
  match env.attemptOf m with
  | .stream _ false => exact inferInstanceAs (Decidable False)
  | .stream _ true => exact inferInstanceAs (Decidable True)
  | .fetchThrows _ => exact inferInstanceAs (Decidable True)
  | .httpError _ => exact inferInstanceAs (Decidable True)

/-- `b` extends `a`: the cumulative text `b` is `a` with more characters
appended. -/
def strExt (a b : String) : Prop := a.data <+: b.data

/-- A transcription response whose `text` field is `"hello"`. -/
def sttHello : SttData := ⟨"hello", "", ""⟩

/-- Fresh module state: empty context, not streaming, no preferred model,
empty history, history enabled (the initial values at source lines
129–136). -/
def st0 : VoiceState := ⟨"", false, none, [], true⟩

/-- Module state with the history toggle off. -/
def stDisabled : VoiceState := ⟨"", false, none, [], false⟩

/-- Every generation attempt returns HTTP 500. -/
def attAllFail : String → ModelAttempt := fun _ => .httpError 500

/-- Kind environment except that every model fails: persistence, form and
transcription succeed, generation always returns non-2xx. -/
def envAllFail : Env := ⟨none, true, true, .ok sttHello, attAllFail, 0, "abc", 5⟩

/-- The first two candidate models return non-2xx; the third streams
`{"response":"a"}`, `{"response":"b"}`, `{"done":true}` and completes. -/
def attFallback : String → ModelAttempt := fun m =>
  if m = "llama3" then .stream [.obj "a" false, .obj "b" false, .obj "" true] false
  else .httpError 500

/-- Environment for the three-candidate fallback scenario. -/
def envFallback : Env := ⟨none, true, true, .ok sttHello, attFallback, 0, "abc", 5⟩

/-- The first candidate streams one delta and then the reader throws; the
second candidate streams one delta and completes. -/
def attMidFail : String → ModelAttempt := fun m =>
  if m = "phi3:latest" then .stream [.obj "a" false] true
  else if m = "mistral:latest" then .stream [.obj "x" false, .obj "" true] false
  else .httpError 500

/-- Environment in which the first model fails mid-stream after emitting a
partial event. -/
def envMidFail : Env := ⟨none, true, true, .ok sttHello, attMidFail, 0, "abc", 5⟩

/-- The first candidate model streams `"a"` then `"b"` and completes. -/
def attFirstOk : String → ModelAttempt := fun m =>
  if m = "phi3:latest" then .stream [.obj "a" false, .obj "b" false, .obj "" true] false
  else .httpError 500

/-- Environment in which the first candidate model succeeds. -/
def envFirstOk : Env := ⟨none, true, true, .ok sttHello, attFirstOk, 0, "abc", 5⟩

/-- Environment whose transcription POST throws. -/
def envSttFail : Env := ⟨none, true, true, .error "connection refused", attAllFail, 0, "abc", 5⟩

lemma turnSnippet_eq_renderTurn (t : VoiceTurn) : turnSnippet t = renderTurn t ++ "\n\n" := by
  simp only [turnSnippet, renderTurn, String.append_assoc]

lemma length_turnSnippet (t : VoiceTurn) :
    (turnSnippet t).length = (renderTurn t).length + 2 := by
  rw [turnSnippet_eq_renderTurn, String.length_append]
  rfl

lemma joinSep_render_length :
    ∀ l : List VoiceTurn, l ≠ [] →
      (joinSep "\n\n" (l.map renderTurn)).length + 2 =
        (l.map (fun t => (turnSnippet t).length)).sum := by
  intro l
  induction l with
  | nil => intro h; exact absurd rfl h
  | cons x xs ih =>
    intro _
    cases xs with
    | nil =>
      simp [joinSep, length_turnSnippet]
    | cons y rest =>
      have h2 := ih (by simp)
      simp only [List.map_cons, joinSep, List.sum_cons] at h2 ⊢
      rw [String.length_append, String.length_append]
      have hsep : ("\n\n" : String).length = 2 := rfl
      rw [hsep, length_turnSnippet]
      omega

lemma selectTurns_sum (limit : Nat) :
    ∀ (l : List VoiceTurn) (total : Nat),
      (selectTurns limit l total).2 =
        total + ((selectTurns limit l total).1.map (fun t => (turnSnippet t).length)).sum := by
  intro l
  induction l with
  | nil => intro total; simp [selectTurns]
  | cons t rest ih =>
    intro total
    simp only [selectTurns]
    split
    · simp
    · simp only [List.map_cons, List.sum_cons]
      rw [ih (total + (turnSnippet t).length)]
      omega

lemma selectTurns_le (limit : Nat) :
    ∀ (l : List VoiceTurn) (total : Nat), total ≤ limit →
      (selectTurns limit l total).2 ≤ limit := by
  intro l
  induction l with
  | nil => intro total h; exact h
  | cons t rest ih =>
    intro total h
    simp only [selectTurns]
    split
    · exact h
    · rename_i hle
      exact ih _ (Nat.le_of_not_lt hle)

lemma selectTurns_take (limit : Nat) :
    ∀ (l : List VoiceTurn) (total : Nat),
      ∃ n, (selectTurns limit l total).1 = l.take n := by
  intro l
  induction l with
  | nil => intro total; exact ⟨0, rfl⟩
  | cons t rest ih =>
    intro total
    simp only [selectTurns]
    split
    · exact ⟨0, rfl⟩
    · obtain ⟨n, hn⟩ := ih (total + (turnSnippet t).length)
      exact ⟨n + 1, by simp [hn]⟩

lemma selectTurns_limit_zero :
    ∀ (l : List VoiceTurn) (total : Nat), (selectTurns 0 l total).1 = [] := by
  intro l total
  cases l with
  | nil => rfl
  | cons t rest =>
    simp only [selectTurns]
    have : total + (turnSnippet t).length > 0 := by
      have := length_turnSnippet t
      omega
    simp [this]

/-- C4 — Budgeted context window: the history section of the prompt is a
header plus the rendered blocks of a contiguous slice of the most recent
turns in chronological order (`hist.drop k`), its total length never
exceeds the character budget plus the fixed header text, and for a budget
of 0 (or when no turn fits, in which case the selection is empty) the
section is the empty string. -/
theorem c4_budgeted_context_window :
    ∀ (enabled : Bool) (hist : List VoiceTurn) (limit : Nat),
      (buildHistorySection enabled hist limit = "" ∨
        ∃ k, buildHistorySection enabled hist limit =
          historyHeader ++ joinSep "\n\n" ((hist.drop k).map renderTurn) ++ "\n\n") ∧
      (buildHistorySection enabled hist limit).length ≤ historyHeader.length + limit ∧
      buildHistorySection enabled hist 0 = "" := by
  intro enabled hist limit
  refine ⟨?_, ?_, ?_⟩
  · simp only [buildHistorySection]
    split
    · split
      · right
        obtain ⟨n, hn⟩ := selectTurns_take limit hist.reverse 0
        refine ⟨hist.length - n, ?_⟩
        have hr : (hist.reverse.take n).reverse = hist.drop (hist.length - n) := by
          have h2 := (List.rtake_eq_reverse_take_reverse (l := hist) (n := n)).symm
          rw [List.rtake] at h2
          exact h2
        rw [hn, hr]
      · left; rfl
    · left; rfl
  · simp only [buildHistorySection]
    split
    · split
      · rename_i hne
        rw [String.length_append, String.length_append]
        have hj := joinSep_render_length _ hne
        have hsum := selectTurns_sum limit hist.reverse 0
        have hle := selectTurns_le limit hist.reverse 0 (Nat.zero_le _)
        simp only [List.map_reverse, List.sum_reverse] at hj
        simp only [List.map_reverse]
        have hsep : ("\n\n" : String).length = 2 := rfl
        rw [hsep]
        omega
      · simp
    · simp
  · simp [buildHistorySection, selectTurns_limit_zero]

lemma appendTurn_length_le (h : List VoiceTurn) (t : VoiceTurn) :
    (appendTurn h t).length ≤ VOICE_HISTORY_MAX_TURNS := by
  simp only [appendTurn]
  split
  · rename_i hgt
    rw [List.length_drop]
    omega
  · rename_i hle
    omega

lemma appendTurn_eq_rtake (h : List VoiceTurn) (t : VoiceTurn) :
    appendTurn h t = (h ++ [t]).rtake VOICE_HISTORY_MAX_TURNS := by
  simp only [appendTurn, List.rtake]
  split
  · rfl
  · rename_i hle
    have : (h ++ [t]).length - VOICE_HISTORY_MAX_TURNS = 0 := by omega
    rw [this, List.drop_zero]

lemma take_append_take {α : Type} (a b : List α) (n : Nat) :
    (a ++ b.take n).take n = (a ++ b).take n := by
  rw [List.take_append_eq_append_take, List.take_append_eq_append_take, List.take_take]
  have : min (n - a.length) n = n - a.length := by omega
  rw [this]

lemma rtake_append_rtake {α : Type} (l1 l2 : List α) (n : Nat) :
    ((l1.rtake n) ++ l2).rtake n = (l1 ++ l2).rtake n := by
  simp only [List.rtake_eq_reverse_take_reverse, List.reverse_append, List.reverse_reverse,
    take_append_take]

lemma rtake_length {α : Type} (l : List α) (n : Nat) :
    (l.rtake n).length = min l.length n := by
  rw [List.rtake, List.length_drop]
  omega

lemma handle_ok_state (st : VoiceState) (env : Env) (buffer : Option (List Nat))
    (marg lang : Option String) (q a m rid : String)
    (h : (handleVoiceRequest st env buffer marg lang).result = .ok q a m rid) :
    (handleVoiceRequest st env buffer marg lang).finalState =
      { st with
        voiceStreamingActive := false
        voiceHistory :=
          if st.voiceHistoryEnabled then appendTurn st.voiceHistory ⟨q, a, env.nowTs⟩
          else st.voiceHistory } := by
  simp only [handleVoiceRequest] at h ⊢
  repeat' split at h
  all_goals try simp [failWith] at h
  all_goals obtain ⟨hq, ha, hm, hr⟩ := h
  all_goals subst hq
  all_goals subst ha
  all_goals subst hm
  all_goals subst hr
  all_goals simp_all

lemma handle_err_history (st : VoiceState) (env : Env) (buffer : Option (List Nat))
    (marg lang : Option String) (msg : String)
    (h : (handleVoiceRequest st env buffer marg lang).result = .err msg) :
    (handleVoiceRequest st env buffer marg lang).finalState.voiceHistory = st.voiceHistory := by
  simp only [handleVoiceRequest] at h ⊢
  repeat' split at h
  all_goals simp_all [failWith]

lemma handle_fields (st : VoiceState) (env : Env) (buffer : Option (List Nat))
    (marg lang : Option String) :
    (handleVoiceRequest st env buffer marg lang).finalState.voiceHistoryEnabled =
      st.voiceHistoryEnabled ∧
    (handleVoiceRequest st env buffer marg lang).finalState.voicePreferredModel =
      st.voicePreferredModel ∧
    (st.voiceStreamingActive = false →
      (handleVoiceRequest st env buffer marg lang).finalState.voiceStreamingActive = false) := by
  simp only [handleVoiceRequest]
  repeat' split
  all_goals simp_all [failWith]

lemma runSeq_history :
    ∀ (rs : List Req) (st : VoiceState),
      st.voiceStreamingActive = false → st.voiceHistoryEnabled = true →
      st.voiceHistory.length ≤ VOICE_HISTORY_MAX_TURNS →
      seqSucceeds st rs →
      (runSeq st rs).voiceHistory =
        (st.voiceHistory ++ seqTurns st rs).rtake VOICE_HISTORY_MAX_TURNS ∧
      (seqTurns st rs).length = rs.length := by
  intro rs
  induction rs with
  | nil =>
    intro st _ _ hlen _
    refine ⟨?_, rfl⟩
    simp only [runSeq, List.foldl_nil, seqTurns, List.append_nil, List.rtake]
    have h0 : st.voiceHistory.length - VOICE_HISTORY_MAX_TURNS = 0 := by omega
    rw [h0, List.drop_zero]
  | cons r rest ih =>
    intro st hact hen hlen hsucc
    obtain ⟨⟨q, a, m, rid, hok⟩, hrest⟩ := hsucc
    have hstate := handle_ok_state st r.env r.buffer r.modelArg r.language q a m rid hok
    have hstep : stepReq st r =
        { st with
          voiceStreamingActive := false
          voiceHistory := appendTurn st.voiceHistory ⟨q, a, r.env.nowTs⟩ } := by
      rw [stepReq, hstate, hen]
      simp
    have hturn : reqTurn st r = some ⟨q, a, r.env.nowTs⟩ := by
      simp [reqTurn, hok]
    have hseq : seqTurns st (r :: rest) =
        VoiceTurn.mk q a r.env.nowTs :: seqTurns (stepReq st r) rest := by
      simp [seqTurns, hturn]
    have h2act : (stepReq st r).voiceStreamingActive = false := by rw [hstep]
    have h2en : (stepReq st r).voiceHistoryEnabled = true := by rw [hstep]; exact hen
    have h2len : (stepReq st r).voiceHistory.length ≤ VOICE_HISTORY_MAX_TURNS := by
      rw [hstep]
      exact appendTurn_length_le _ _
    obtain ⟨ih1, ih2⟩ := ih (stepReq st r) h2act h2en h2len hrest
    have hrun : runSeq st (r :: rest) = runSeq (stepReq st r) rest := rfl
    refine ⟨?_, ?_⟩
    · rw [hrun, ih1, hseq]
      have hh : (stepReq st r).voiceHistory = appendTurn st.voiceHistory ⟨q, a, r.env.nowTs⟩ := by
        rw [hstep]
      rw [hh, appendTurn_eq_rtake, rtake_append_rtake, List.append_assoc, List.singleton_append]
    · simp [hseq, ih2]

/-- C3 — Bounded FIFO history: a handler run never grows the history past
the 15-turn bound, and after any sequence of successful requests (history
enabled, starting from empty) the history is exactly the most recent
`min(N, 15)` produced turns in chronological order, older turns having
been evicted first. -/
theorem c3_bounded_fifo_history :
    (∀ st env buffer marg lang,
      st.voiceHistory.length ≤ VOICE_HISTORY_MAX_TURNS →
      (handleVoiceRequest st env buffer marg lang).finalState.voiceHistory.length ≤
        VOICE_HISTORY_MAX_TURNS) ∧
    (∀ (st : VoiceState) (rs : List Req),
      st.voiceHistory = [] → st.voiceStreamingActive = false →
      st.voiceHistoryEnabled = true → seqSucceeds st rs →
      (runSeq st rs).voiceHistory =
        (seqTurns st rs).drop ((seqTurns st rs).length - VOICE_HISTORY_MAX_TURNS) ∧
      (runSeq st rs).voiceHistory.length = min rs.length VOICE_HISTORY_MAX_TURNS ∧
      (seqTurns st rs).length = rs.length) := by
  constructor
  · intro st env buffer marg lang hlen
    cases hres : (handleVoiceRequest st env buffer marg lang).result with
    | ok q a m rid =>
      rw [handle_ok_state st env buffer marg lang q a m rid hres]
      by_cases hen : st.voiceHistoryEnabled
      · simp [hen, appendTurn_length_le]
      · simp [hen, hlen]
    | err msg =>
      rw [handle_err_history st env buffer marg lang msg hres]
      exact hlen
  · intro st rs hhist hact hen hsucc
    obtain ⟨h1, h2⟩ := runSeq_history rs st hact hen (by rw [hhist]; simp) hsucc
    rw [hhist] at h1
    rw [List.nil_append] at h1
    refine ⟨?_, ?_, h2⟩
    · rw [h1, List.rtake]
    · rw [h1, rtake_length, h2]

/-- Witness for C3 at a concrete input: one successful request starting
from the fresh state leaves exactly that request's turn in the history. -/
theorem c3_bounded_fifo_history_witness :
    (runSeq st0 [⟨envFirstOk, some [0], none, none⟩]).voiceHistory =
      (seqTurns st0 [⟨envFirstOk, some [0], none, none⟩]).drop
        ((seqTurns st0 [⟨envFirstOk, some [0], none, none⟩]).length - VOICE_HISTORY_MAX_TURNS) :=
  (c3_bounded_fifo_history.2 st0 [⟨envFirstOk, some [0], none, none⟩] rfl rfl rfl
    ⟨⟨"hello", "ab", "phi3:latest", "0-abc", by decide⟩, trivial⟩).1

lemma attemptModel_some (env : Env) (rid x u ans : String) (evs : List VoiceEvent)
    (aws : List (Await × Bool)) (h : attemptModel env rid x = (some u, ans, evs, aws)) :
    u = x ∧ ∃ lines, env.attemptOf x = .stream lines false ∧
      ans = (processLines rid x lines "").1 := by
  unfold attemptModel at h
  cases hat : env.attemptOf x with
  | fetchThrows msg => rw [hat] at h; simp at h
  | httpError s => rw [hat] at h; simp at h
  | stream lines readFails =>
    rw [hat] at h
    cases readFails with
    | true => simp at h
    | false =>
      simp only [Bool.false_eq_true, if_false, Prod.mk.injEq, Option.some.injEq] at h
      exact ⟨h.1.symm, lines, rfl, h.2.1.symm⟩

lemma attemptModel_fail (env : Env) (rid x : String) (h : attemptFails env x) :
    (attemptModel env rid x).1 = none ∧ (attemptModel env rid x).2.1 = "" := by
  unfold attemptFails at h
  unfold attemptModel
  cases hat : env.attemptOf x with
  | fetchThrows msg => simp
  | httpError s => simp
  | stream lines readFails =>
    rw [hat] at h
    cases readFails with
    | true => simp
    | false => exact absurd h (by simp)

lemma runModels_ok_attempt :
    ∀ (ms : List String) (env : Env) (rid p m : String),
      (runModels env rid p ms).1 = some m →
      ∃ lines, env.attemptOf m = .stream lines false ∧
        (runModels env rid p ms).2.1 = (processLines rid m lines "").1 := by
  intro ms
  induction ms with
  | nil => intro env rid p m h; simp [runModels] at h
  | cons x rest ih =>
    intro env rid p m h
    simp only [runModels] at h ⊢
    split at h
    · rename_i u ans evs aws heq
      simp only at h ⊢
      obtain ⟨hu, lines, hat, hans⟩ := attemptModel_some env rid x u ans evs aws heq
      rw [Option.some.injEq] at h
      subst h
      subst hu
      exact ⟨lines, hat, hans⟩
    · rename_i ans2 evs aws heq
      exact ih env rid p m h

lemma runModels_all_fail :
    ∀ (ms : List String) (env : Env) (rid p : String),
      (∀ x ∈ ms, attemptFails env x) →
      (runModels env rid p ms).1 = none ∧ (runModels env rid p ms).2.1 = "" ∧
      (runModels env rid p ms).2.2.1 = ms.map (fun x => ExtCall.generateCall x p) := by
  intro ms
  induction ms with
  | nil => intro env rid p _; exact ⟨rfl, rfl, rfl⟩
  | cons x rest ih =>
    intro env rid p h
    have hx := attemptModel_fail env rid x (h x (by simp))
    obtain ⟨h1, h2, h3⟩ := ih env rid p (fun y hy => h y (by simp [hy]))
    simp only [runModels]
    split
    · rename_i u ans evs aws heq
      rw [heq] at hx
      simp at hx
    · rename_i ans2 evs aws heq
      simp only [List.map_cons]
      exact ⟨h1, h2, by rw [h3]⟩

lemma runModels_first_ok :
    ∀ (ms : List String) (env : Env) (rid p m : String) (lines : List StreamLine)
      (rest : List String),
      (∀ x ∈ ms, attemptFails env x) →
      env.attemptOf m = .stream lines false →
      (runModels env rid p (ms ++ m :: rest)).1 = some m ∧
      (runModels env rid p (ms ++ m :: rest)).2.1 = (processLines rid m lines "").1 ∧
      (runModels env rid p (ms ++ m :: rest)).2.2.1 =
        ms.map (fun x => ExtCall.generateCall x p) ++ [ExtCall.generateCall m p] := by
  intro ms
  induction ms with
  | nil =>
    intro env rid p m lines rest _ hat
    simp only [List.nil_append, runModels]
    have : attemptModel env rid m =
        (some m, (processLines rid m lines "").1, (processLines rid m lines "").2,
          (Await.fetchGenerate m, true) ::
            (List.range lines.length).map (fun i => (Await.streamRead m i, true))) := by
      simp [attemptModel, hat]
    rw [this]
    exact ⟨rfl, rfl, rfl⟩
  | cons x ms2 ih =>
    intro env rid p m lines rest h hat
    have hx := attemptModel_fail env rid x (h x (by simp))
    obtain ⟨h1, h2, h3⟩ := ih env rid p m lines rest (fun y hy => h y (by simp [hy])) hat
    simp only [List.cons_append, runModels]
    split
    · rename_i u ans evs aws heq
      rw [heq] at hx
      simp at hx
    · rename_i ans2 evs aws heq
      simp only [List.map_cons, List.cons_append]
      refine ⟨h1, h2, ?_⟩
      simp only [List.append_eq]
      rw [h3]

lemma handle_ok_answer (st : VoiceState) (env : Env) (buffer : Option (List Nat))
    (marg lang : Option String) (q a m rid : String)
    (h : (handleVoiceRequest st env buffer marg lang).result = .ok q a m rid) :
    rid = requestIdOf env ∧
    (runModels env (requestIdOf env) (promptOf st q)
      (buildCandidateModels marg st.voicePreferredModel)).1 = some m ∧
    a = (if (runModels env (requestIdOf env) (promptOf st q)
              (buildCandidateModels marg st.voicePreferredModel)).2.1 = ""
         then "No answer generated."
         else (runModels env (requestIdOf env) (promptOf st q)
                (buildCandidateModels marg st.voicePreferredModel)).2.1) := by
  simp only [handleVoiceRequest] at h
  repeat' split at h
  all_goals try simp [failWith] at h
  all_goals obtain ⟨hq, ha, hm, hr⟩ := h
  all_goals subst hq
  all_goals subst ha
  all_goals subst hm
  all_goals subst hr
  all_goals simp_all

/-- C7 counterexample — the claim's "if and only if" fails when the
history toggle is off: this run reaches the non-empty final answer
`"ab"`, yet no conversation turn is appended. -/
theorem c7_counterexample :
    (handleVoiceRequest stDisabled envFirstOk (some [0]) none none).result =
      .ok "hello" "ab" "phi3:latest" "0-abc" ∧
    (handleVoiceRequest stDisabled envFirstOk (some [0]) none none).finalState.voiceHistory =
      [] := by
  decide

/-- C7 (amended) — History append iff success and history enabled: a turn
`{question, answer, timestamp}` is appended (and trimmed) exactly when the
request succeeds AND the history toggle is on; every successful request
has a non-empty final answer, obtained from the winning model's
accumulated stream text with the fixed placeholder "No answer generated."
substituted when that text is empty; every failed request leaves the
history unchanged. -/
theorem c7_history_append_amended :
    ∀ (st : VoiceState) (env : Env) (buffer : Option (List Nat)) (marg lang : Option String),
      (∀ q a m rid,
        (handleVoiceRequest st env buffer marg lang).result = .ok q a m rid →
          a ≠ "" ∧
          (handleVoiceRequest st env buffer marg lang).finalState.voiceHistory =
            (if st.voiceHistoryEnabled then appendTurn st.voiceHistory ⟨q, a, env.nowTs⟩
             else st.voiceHistory) ∧
          ∃ lines, env.attemptOf m = .stream lines false ∧
            a = (if (processLines (requestIdOf env) m lines "").1 = ""
                 then "No answer generated."
                 else (processLines (requestIdOf env) m lines "").1)) ∧
      (∀ msg,
        (handleVoiceRequest st env buffer marg lang).result = .err msg →
          (handleVoiceRequest st env buffer marg lang).finalState.voiceHistory =
            st.voiceHistory) := by
  intro st env buffer marg lang
  constructor
  · intro q a m rid h
    obtain ⟨hrid, hgen, ha⟩ := handle_ok_answer st env buffer marg lang q a m rid h
    obtain ⟨lines, hat, hans⟩ :=
      runModels_ok_attempt (buildCandidateModels marg st.voicePreferredModel) env
        (requestIdOf env) (promptOf st q) m hgen
    refine ⟨?_, ?_, lines, hat, ?_⟩
    · rw [ha]
      split
      · decide
      · assumption
    · have hst := handle_ok_state st env buffer marg lang q a m rid h
      rw [hst]
    · rw [ha, hans]
  · intro msg h
    exact handle_err_history st env buffer marg lang msg h

/-- Witness for C7 at a concrete input: the successful run with history
enabled appends its turn. -/
theorem c7_history_append_amended_witness :
    (handleVoiceRequest st0 envFirstOk (some [0]) none none).finalState.voiceHistory =
      (if st0.voiceHistoryEnabled then appendTurn st0.voiceHistory ⟨"hello", "ab", envFirstOk.nowTs⟩
       else st0.voiceHistory) :=
  (((c7_history_append_amended st0 envFirstOk (some [0]) none none).1
    "hello" "ab" "phi3:latest" "0-abc" (by decide)).2.1)

/-- C9 — Total error handling: whenever an admitted invocation fails (any
failure: missing buffer, persistence, form preparation, transcription,
empty transcript, all models failed), the handler returns
`{success:false, error}`, the in-flight flag ends up cleared, and the last
event sent is the `'voice:error'` event carrying the same human-readable
message; nothing escapes the operation boundary (the handler is a total
function into `RunOutput`). -/
theorem c9_total_error_handling :
    ∀ (st : VoiceState) (env : Env) (buffer : Option (List Nat)) (marg lang : Option String)
      (msg : String),
      st.voiceStreamingActive = false →
      (handleVoiceRequest st env buffer marg lang).result = .err msg →
      (handleVoiceRequest st env buffer marg lang).finalState.voiceStreamingActive = false ∧
      (handleVoiceRequest st env buffer marg lang).events.getLast? = some (.error msg) := by
  intro st env buffer marg lang msg hact h
  simp only [handleVoiceRequest] at h ⊢
  repeat' split at h
  all_goals try simp_all [failWith, List.getLast?_concat]
  all_goals rw [← List.cons_append, List.getLast?_concat]

/-- Witness for C9 at a concrete input: a failing transcription clears the
flag and ends the event stream with the error event. -/
theorem c9_total_error_handling_witness :
    (handleVoiceRequest st0 envSttFail (some [0]) none none).finalState.voiceStreamingActive =
      false ∧
    (handleVoiceRequest st0 envSttFail (some [0]) none none).events.getLast? =
      some (.error "Transcription failed") :=
  c9_total_error_handling st0 envSttFail (some [0]) none none "Transcription failed" rfl
    (by decide)

lemma attemptModel_awaits (env : Env) (rid x : String) :
    ∀ pr ∈ (attemptModel env rid x).2.2.2, pr.2 = true ∧ isStreamingAwait pr.1 = true := by
  intro pr hpr
  unfold attemptModel at hpr
  cases hat : env.attemptOf x with
  | fetchThrows msg =>
    rw [hat] at hpr
    simp at hpr
    subst hpr
    exact ⟨rfl, rfl⟩
  | httpError s =>
    rw [hat] at hpr
    simp at hpr
    subst hpr
    exact ⟨rfl, rfl⟩
  | stream lines readFails =>
    rw [hat] at hpr
    have hpr2 : pr ∈ (Await.fetchGenerate x, true) ::
        (List.range lines.length).map (fun i => (Await.streamRead x i, true)) := by
      cases readFails with
      | true => simpa using hpr
      | false => simpa using hpr
    rcases List.mem_cons.mp hpr2 with h | h
    · subst h
      exact ⟨rfl, rfl⟩
    · obtain ⟨i, _, heq⟩ := List.mem_map.mp h
      rw [← heq]
      exact ⟨rfl, rfl⟩

lemma runModels_awaits (env : Env) (rid p : String) :
    ∀ (ms : List String) (pr : Await × Bool),
      pr ∈ (runModels env rid p ms).2.2.2.2 → pr.2 = true ∧ isStreamingAwait pr.1 = true := by
  intro ms
  induction ms with
  | nil => intro pr hpr; simp [runModels] at hpr
  | cons x rest ih =>
    intro pr hpr
    simp only [runModels] at hpr
    split at hpr
    · rename_i u ans evs aws heq
      have : pr ∈ (attemptModel env rid x).2.2.2 := by rw [heq]; exact hpr
      exact attemptModel_awaits env rid x pr this
    · rename_i ans2 evs aws heq
      rcases List.mem_append.mp hpr with h | h
      · have : pr ∈ (attemptModel env rid x).2.2.2 := by rw [heq]; exact h
        exact attemptModel_awaits env rid x pr this
      · exact ih pr h

lemma handle_awaits (st : VoiceState) (env : Env) (buffer : Option (List Nat))
    (marg lang : Option String) :
    ∀ pr ∈ (handleVoiceRequest st env buffer marg lang).awaits,
      pr.2 = isStreamingAwait pr.1 := by
  intro pr hpr
  simp only [handleVoiceRequest] at hpr
  repeat' split at hpr
  all_goals simp only [failWith] at hpr
  all_goals first
    | exact absurd hpr (List.not_mem_nil pr)
    | (rw [List.mem_singleton] at hpr; subst hpr; rfl)
    | (rcases List.mem_append.mp hpr with h2 | h2
       · rcases List.mem_append.mp h2 with h3 | h3
         · rw [List.mem_singleton] at h3; subst h3; rfl
         · rw [List.mem_singleton] at h3; subst h3; rfl
       · obtain ⟨hb, hs⟩ := runModels_awaits env _ _ _ pr h2
         rw [hb, hs])
    | (rcases List.mem_append.mp hpr with h2 | h2
       · rw [List.mem_singleton] at h2; subst h2; rfl
       · rw [List.mem_singleton] at h2; subst h2; rfl)

/-- C1 counterexample — the claim fails for requests that arrive while
another request is transcribing: a run reaches its transcription `await`
with `voiceStreamingActive` still `false` (first conjunct), and an
invocation handled in that module state (flag `false`, i.e. `st0`) is
admitted and fully processed instead of returning the structured
rejection (second conjunct). -/
theorem c1_counterexample :
    (Await.sttPost, false) ∈ (handleVoiceRequest st0 envAllFail (some [0]) none none).awaits ∧
    (handleVoiceRequest st0 envFirstOk (some [1]) none none).result =
      .ok "hello" "ab" "phi3:latest" "0-abc" := by
  decide

/-- C1 (amended) — Single-flight admission guards only the
streaming-generation phase: an invocation arriving while
`voiceStreamingActive` is set returns immediately with
`{success:false, error:"Another voice request in progress"}`, is not
queued, alters no state and emits nothing; and the flag is exactly the
streaming-generation region — at every suspension point of a run the flag
reads `true` iff the point lies inside the candidate-model streaming loop
(it reads `false` during the imports and the transcription call). -/
theorem c1_single_flight_amended :
    (∀ (st : VoiceState) (env : Env) (buffer : Option (List Nat)) (marg lang : Option String),
      st.voiceStreamingActive = true →
      handleVoiceRequest st env buffer marg lang = ⟨st, [], [], [], .err rejectionMsg⟩) ∧
    (∀ (st : VoiceState) (env : Env) (buffer : Option (List Nat)) (marg lang : Option String)
      (pr : Await × Bool),
      pr ∈ (handleVoiceRequest st env buffer marg lang).awaits →
      pr.2 = isStreamingAwait pr.1) := by
  constructor
  · intro st env buffer marg lang hact
    simp [handleVoiceRequest, hact]
  · intro st env buffer marg lang pr hpr
    exact handle_awaits st env buffer marg lang pr hpr

/-- Witness for C1 at a concrete input: a busy state yields the immediate
structured rejection with nothing else observable. -/
theorem c1_single_flight_amended_witness :
    handleVoiceRequest ⟨"", true, none, [], true⟩ envAllFail (some [0]) none none =
      ⟨⟨"", true, none, [], true⟩, [], [], [], .err rejectionMsg⟩ :=
  c1_single_flight_amended.1 ⟨"", true, none, [], true⟩ envAllFail (some [0]) none none rfl

/-- C2 — Model fallback: the candidate loop returns `none` with an empty
accumulated answer when every candidate fails (and the handler then fails
with "LLM generation failed for all models"); it stops at the first
candidate that completes, reporting that model and only its accumulated
text, having issued generation calls exactly for the failed predecessors
and the winner; and in the concrete three-candidate scenario (first two
non-2xx, third streams `"a"`, `"b"`, then done) the final answer is
`"ab"`, the reported model is the third candidate, no partial event
references the first two models, and the fourth candidate is never
called. -/
theorem c2_model_fallback :
    (∀ (env : Env) (rid p : String) (ms : List String),
      (∀ x ∈ ms, attemptFails env x) →
      (runModels env rid p ms).1 = none ∧ (runModels env rid p ms).2.1 = "") ∧
    (∀ (env : Env) (rid p m : String) (lines : List StreamLine) (ms rest : List String),
      (∀ x ∈ ms, attemptFails env x) →
      env.attemptOf m = .stream lines false →
      (runModels env rid p (ms ++ m :: rest)).1 = some m ∧
      (runModels env rid p (ms ++ m :: rest)).2.1 = (processLines rid m lines "").1 ∧
      (runModels env rid p (ms ++ m :: rest)).2.2.1 =
        ms.map (fun x => ExtCall.generateCall x p) ++ [ExtCall.generateCall m p]) ∧
    (∀ (st : VoiceState) (env : Env) (buffer : List Nat) (marg lang : Option String)
      (data : SttData),
      st.voiceStreamingActive = false → env.writeError = none →
      env.formDataAvailable = true → env.formBuildOk = true →
      env.sttOutcome = .ok data → transcriptionOf data ≠ "" →
      (∀ x ∈ buildCandidateModels marg st.voicePreferredModel, attemptFails env x) →
      (handleVoiceRequest st env (some buffer) marg lang).result =
        .err "LLM generation failed for all models") ∧
    (handleVoiceRequest st0 envFallback (some [0]) none none).result =
      .ok "hello" "ab" "llama3" "0-abc" ∧
    progEvents (handleVoiceRequest st0 envFallback (some [0]) none none).events =
      [("0-abc", "a", "a", "llama3"), ("0-abc", "b", "ab", "llama3")] ∧
    (handleVoiceRequest st0 envFallback (some [0]) none none).calls =
      [.sttCall "en", .generateCall "phi3:latest" "Question: hello\n\nAnswer:",
       .generateCall "mistral:latest" "Question: hello\n\nAnswer:",
       .generateCall "llama3" "Question: hello\n\nAnswer:"] := by
  refine ⟨?_, ?_, ?_, by decide, by decide, by decide⟩
  · intro env rid p ms h
    obtain ⟨h1, h2, _⟩ := runModels_all_fail ms env rid p h
    exact ⟨h1, h2⟩
  · intro env rid p m lines ms rest h hat
    exact runModels_first_ok ms env rid p m lines rest h hat
  · intro st env buffer marg lang data hact hw hf hb hstt htr hfail
    obtain ⟨h1, _, _⟩ :=
      runModels_all_fail (buildCandidateModels marg st.voicePreferredModel) env
        (requestIdOf env) (promptOf st (transcriptionOf data)) hfail
    simp [handleVoiceRequest, hact, hw, hf, hb, hstt, htr, h1, failWith]

/-- Witness for C2 at a concrete input: with every candidate returning
HTTP 500, the request fails with the all-models error. -/
theorem c2_model_fallback_witness :
    (handleVoiceRequest st0 envAllFail (some [0]) none none).result =
      .err "LLM generation failed for all models" :=
  c2_model_fallback.2.2.1 st0 envAllFail [0] none none sttHello rfl rfl rfl rfl rfl
    (by decide) (by decide)

/-- C5 counterexample — the cumulative text carried by the partial events
of one request is not monotone across a fallback transition: in this run
the first candidate emits a partial with cumulative text `"a"`, then fails
mid-stream; the second candidate's first partial carries cumulative text
`"x"`, which does not extend `"a"`. -/
theorem c5_counterexample :
    progEvents (handleVoiceRequest st0 envMidFail (some [0]) none none).events =
      [("0-abc", "a", "a", "phi3:latest"), ("0-abc", "x", "x", "mistral:latest")] ∧
    ¬ strExt "a" "x" := by
  constructor
  · decide
  · intro h
    obtain ⟨t, ht⟩ := h
    simp at ht

/-- C5 (amended) — Ordered partial events, monotone within one model
attempt: the partial events of a stream are exactly its truthy `response`
deltas in read order, each paired with the cumulative text obtained by
appending that delta (so within one attempt each cumulative text extends
the previous one, forming a chain); when an attempt fails the accumulated
answer is reset to empty, so the cumulative text restarts from empty at a
fallback transition. -/
theorem c5_partials_amended :
    (∀ (rid m : String) (lines : List StreamLine) (acc : String),
      (processLines rid m lines acc).2 =
        List.zipWith (fun d a => VoiceEvent.prog rid d a m) (responsesOf lines)
          (cumulFrom acc (responsesOf lines))) ∧
    (∀ (acc : String) (ds : List String), List.Chain strExt acc (cumulFrom acc ds)) ∧
    (∀ (env : Env) (rid m : String), attemptFails env m → (attemptModel env rid m).2.1 = "") := by
  refine ⟨?_, ?_, ?_⟩
  · intro rid m lines
    induction lines with
    | nil => intro acc; rfl
    | cons l rest ih =>
      intro acc
      cases l with
      | malformed raw =>
        simp only [processLines, responsesOf, List.filterMap_cons]
        exact ih acc
      | obj r d =>
        by_cases hr : r = ""
        · simp only [processLines, hr, if_true, responsesOf, List.filterMap_cons, if_pos]
          simpa [responsesOf] using ih acc
        · simp only [processLines, hr, if_false, responsesOf, List.filterMap_cons, if_neg]
          simp only [responsesOf] at ih
          simp [cumulFrom, ih (acc ++ r)]
  · intro acc ds
    induction ds generalizing acc with
    | nil => exact List.Chain.nil
    | cons d rest ih =>
      exact List.Chain.cons ⟨d.data, (String.data_append acc d).symm⟩ (ih (acc ++ d))
  · intro env rid m h
    exact (attemptModel_fail env rid m h).2

/-- Witness for C5 at a concrete input: a failed attempt hands an empty
accumulated answer to the next candidate. -/
theorem c5_partials_amended_witness :
    (attemptModel envAllFail "0-abc" "phi3:latest").2.1 = "" :=
  c5_partials_amended.2.2 envAllFail "0-abc" "phi3:latest" (by decide)

/-- C6 counterexample — an empty-but-present buffer (`byteLength === 0`)
is NOT rejected: the input check `!args?.buffer` only catches a missing
buffer, so this run attempts the transcription network call and fails
with a transcription error, not an empty-buffer error. -/
theorem c6_counterexample :
    (handleVoiceRequest st0 envSttFail (some []) none none).calls = [.sttCall "en"] ∧
    (handleVoiceRequest st0 envSttFail (some []) none none).result =
      .err "Transcription failed" := by
  decide

/-- C6 (amended) — Missing-input rejection: an invocation with no audio
buffer returns `{success:false, error:"No audio buffer provided"}` with no
network call attempted; an empty-but-present buffer is not rejected by the
input check and (when persistence and form preparation succeed) proceeds
to the transcription call. -/
theorem c6_input_rejection_amended :
    (∀ (st : VoiceState) (env : Env) (marg lang : Option String),
      st.voiceStreamingActive = false →
      handleVoiceRequest st env none marg lang =
        ⟨{ st with voiceStreamingActive := false }, [],
          [.error "No audio buffer provided"], [], .err "No audio buffer provided"⟩) ∧
    (∀ (st : VoiceState) (env : Env) (marg lang : Option String) (buf : List Nat),
      st.voiceStreamingActive = false → env.writeError = none →
      env.formDataAvailable = true → env.formBuildOk = true →
      ExtCall.sttCall (lang.getD "en") ∈
        (handleVoiceRequest st env (some buf) marg lang).calls) := by
  constructor
  · intro st env marg lang hact
    simp [handleVoiceRequest, hact, failWith]
  · intro st env marg lang buf hact hw hf hb
    simp only [handleVoiceRequest, hact, hw, hf, hb]
    repeat' split
    all_goals try simp [failWith]
    all_goals simp_all

/-- Witness for C6 at a concrete input: the empty-buffer run attempts the
transcription call. -/
theorem c6_input_rejection_amended_witness :
    ExtCall.sttCall "en" ∈ (handleVoiceRequest st0 envSttFail (some []) none none).calls :=
  c6_input_rejection_amended.2 st0 envSttFail none none [] rfl rfl rfl rfl

/-- C8 — Abort is not implemented in the main process: the handler's
event surface consists solely of the `'voice:status'`, `'voice:partial'`,
`'voice:result'` and `'voice:error'` channels (no aborted event exists to
be emitted), the handler takes no abort input at all, and evaluating the
pipeline at the failing input shows a stream being consumed to completion
with its partial events delivered and its turn appended to history —
nothing can stop it: the renderer's `abortProcessing?.()` call has no
main-process IPC handler behind it and `controller.abort()` is never
invoked. -/
theorem c8_abort_not_implemented :
    (∀ (st : VoiceState) (env : Env) (buffer : Option (List Nat)) (marg lang : Option String)
      (e : VoiceEvent), e ∈ (handleVoiceRequest st env buffer marg lang).events →
      eventChannel e ∈ ["voice:status", "voice:partial", "voice:result", "voice:error"]) ∧
    (handleVoiceRequest st0 envFirstOk (some [0]) none none).result =
      .ok "hello" "ab" "phi3:latest" "0-abc" ∧
    progEvents (handleVoiceRequest st0 envFirstOk (some [0]) none none).events =
      [("0-abc", "a", "a", "phi3:latest"), ("0-abc", "b", "ab", "phi3:latest")] ∧
    (handleVoiceRequest st0 envFirstOk (some [0]) none none).finalState.voiceHistory =
      [⟨"hello", "ab", 5⟩] := by
  refine ⟨?_, by decide, by decide, by decide⟩
  intro st env buffer marg lang e _
  cases e <;> simp [eventChannel]

/-- Witness for C8 at a concrete input: a concrete emitted event's channel
is among the four existing voice channels. -/
theorem c8_abort_not_implemented_witness :
    eventChannel (VoiceEvent.status "stt" "Transcribing…" none none) ∈
      ["voice:status", "voice:partial", "voice:result", "voice:error"] :=
  c8_abort_not_implemented.1 st0 envSttFail (some [0]) none none
    (VoiceEvent.status "stt" "Transcribing…" none none) (by decide)

lemma foldl_insertEnd :
    ∀ (l acc : List String),
      l.foldl insertEnd acc = acc ++ dedupKeepFirst (l.filter (fun y => y ∉ acc)) := by
  intro l
  induction l with
  | nil => intro acc; simp [dedupKeepFirst]
  | cons x xs ih =>
    intro acc
    simp only [List.foldl_cons]
    by_cases hx : x ∈ acc
    · have h1 : insertEnd acc x = acc := by simp [insertEnd, hx]
      rw [h1, ih]
      congr 2
      simp [hx]
    · have h1 : insertEnd acc x = acc ++ [x] := by simp [insertEnd, hx]
      rw [h1, ih]
      have h2 : (x :: xs).filter (fun y => y ∉ acc) = x :: xs.filter (fun y => y ∉ acc) := by
        simp [hx]
      rw [h2]
      conv_rhs => rw [dedupKeepFirst]
      rw [List.append_assoc, List.singleton_append]
      congr 2
      rw [List.filter_filter]
      refine congrArg dedupKeepFirst ?_
      apply List.filter_congr
      intro a _
      by_cases hax : a = x
      · subst hax
        simp [List.mem_append]
      · by_cases ha : a ∈ acc <;> simp [hax, ha, List.mem_append]

/-- C10 — Candidate model list construction: the ordered list is the
explicit per-request override if truthy, otherwise the persisted
preferred model if truthy, followed by the fixed default fallback list,
with duplicates removed while preserving first-seen order (the
spec-worded `dedupKeepFirst` of the concatenation). -/
theorem c10_candidate_models :
    ∀ (marg pref : Option String),
      buildCandidateModels marg pref =
        dedupKeepFirst
          ((match optTruthy marg with
            | some m => [m]
            | none =>
              match optTruthy pref with
              | some p => [p]
              | none => []) ++ defaultModels) := by
  intro marg pref
  unfold buildCandidateModels
  cases hm : optTruthy marg with
  | some m =>
    simp only
    rw [foldl_insertEnd]
    conv_rhs => rw [List.singleton_append]
    conv_rhs => rw [dedupKeepFirst]
    rw [List.singleton_append]
    congr 1
    refine congrArg dedupKeepFirst ?_
    apply List.filter_congr
    intro a _
    simp [List.mem_singleton]
  | none =>
    cases hp : optTruthy pref with
    | some p =>
      simp only
      rw [foldl_insertEnd]
      conv_rhs => rw [List.singleton_append]
      conv_rhs => rw [dedupKeepFirst]
      rw [List.singleton_append]
      congr 1
      refine congrArg dedupKeepFirst ?_
      apply List.filter_congr
      intro a _
      simp [List.mem_singleton]
    | none =>
      simp only
      rw [foldl_insertEnd, List.nil_append, List.nil_append]
      have hfl : defaultModels.filter (fun y => y ∉ ([] : List String)) = defaultModels := by
        simp
      rw [hfl]

end Parrot
